import Mathlib

/-!
# Verification of the nutrigeneengine risk-scoring core

Shallow embedding of `src/nutrigeneengine/risk_scorer.py` (class `RiskScorer`).
Python floats are modelled as rationals (`ℚ`); Python dictionaries are
modelled as association lists looked up by first match; Python's
`round(x, n)` (round-half-to-even) is modelled by `pyRound`.
The per-variant detail f-strings are modelled by the inductive type
`Detail`, whose constructors record exactly the values interpolated by the
corresponding f-string in the source (the decimal rendering of numbers is
abstracted; the strings' identities and order are preserved).
-/

/-- A genotype map: Python dict rsid → raw genotype string. -/
abbrev GenotypeMap := List (String × String)

/-- Python `dict.get(key)` on an association list (first match). -/
def gget (gd : GenotypeMap) (key : String) : Option String :=
  (gd.find? (fun kv => kv.1 = key)).map (fun kv => kv.2)

/-- `variant['scoring']`: `{default_weight?, genotype_points?}`.
`genotype_points` is a dict from allele-count string key to points. -/
structure Scoring where
  default_weight : Option ℚ
  genotype_points : Option (List (String × ℚ))
deriving Repr, DecidableEq

/-- Python `point_map.get(str(allele_count), 0)`. -/
def pmGet (pm : List (String × ℚ)) (key : String) : ℚ :=
  (((pm.find? (fun kv => kv.1 = key)).map (fun kv => kv.2))).getD 0

/-- A schema variant: `{rsid?, weight?, effect?: {direction?}, scoring?}`.
`direction` collapses `variant.get("effect", {}).get("direction", "risk_up")`:
it is `none` exactly when the source chain would fall back to `"risk_up"`. -/
structure Variant where
  rsid : Option String
  weight : Option ℚ
  direction : Option String
  scoring : Option Scoring
deriving Repr, DecidableEq

/-- The genotype-points map of a variant, present exactly when the source
condition `'scoring' in variant and 'genotype_points' in variant['scoring']`
holds. -/
def Variant.pointMap (v : Variant) : Option (List (String × ℚ)) :=
  v.scoring.bind Scoring.genotype_points

/-- Abstract rendering of the per-variant detail strings appended to
`variant_details`; each constructor records the values interpolated by the
corresponding f-string in `_calculate_trait_score`. -/
inductive Detail where
  /-- `f"{rsid}: Neutral (phenotypic only, not scored)"` -/
  | neutral (rsid : Option String)
  /-- `f"{rsid}: Missing"` (genotype-points branch only) -/
  | missing (rsid : Option String)
  /-- `f"{rsid} ({diploid}): {allele_count} alleles → {points} points ([{direction}]) × {weight}w = {trait_score}"` -/
  | scoredPoints (rsid : Option String) (diploid : String) (allele_count : ℕ)
      (points : ℚ) (direction : String) (weight : ℚ) (trait_score : ℚ)
  /-- `f"{rsid} ({diploid}): {allele_count} alleles ([{direction}]) × {weight} = {trait_score}"` -/
  | scoredLegacy (rsid : Option String) (diploid : String) (allele_count : ℕ)
      (direction : String) (weight : ℚ) (trait_score : ℚ)
deriving Repr, DecidableEq

/-- A trait definition as consumed by `_calculate_trait_score`:
`trait_info.get("variants", [])` and `trait_info.get("domain", "Unknown")`. -/
structure TraitNode where
  name : String
  domain : Option String
  variants : Option (List Variant)
deriving Repr, DecidableEq

/-- A trait node inside a hierarchical group: may carry `subtraits`
(checked first by `_process_group`) or direct `variants`. -/
structure GroupTrait where
  name : String
  domain : Option String
  variants : Option (List Variant)
  subtraits : Option (List TraitNode)
deriving Repr, DecidableEq

/-- The trait dict itself passed to `_calculate_trait_score` when the node
has direct variants. -/
def GroupTrait.asTraitNode (t : GroupTrait) : TraitNode :=
  ⟨t.name, t.domain, t.variants⟩

/-- A taxonomy group: `{name?, traits: [...]}` (`group_data.get('name', 'Unknown')`). -/
structure TaxGroup where
  name : Option String
  traits : List GroupTrait
deriving Repr, DecidableEq

/-- The schema: hierarchical when the `taxonomy` key is present
(`taxonomy.get('top_groups', [])` collapsed into the list), flat otherwise
(`schema.get("traits", {})` as an ordered dict). -/
structure Schema where
  taxonomy : Option (List TaxGroup)
  traits : List (String × TraitNode)
deriving Repr, DecidableEq

/-- The scorer state: `self.schema`, `self.thresholds`, `self.language`. -/
structure RiskScorer where
  schema : Schema
  thresholds : ℚ × ℚ
  language : String
deriving Repr, DecidableEq

/-- `__init__`: `self.thresholds = thresholds or [33.0, 66.0]`. -/
def mkRiskScorer (schema : Schema) (thresholds : Option (ℚ × ℚ) := none)
    (language : String := "en") : RiskScorer :=
  ⟨schema, thresholds.getD (33, 66), language⟩

/-- `RiskScorer._get_allele_count`: 0 unless the string has exactly two
characters; 2 when they are equal, 1 otherwise. -/
def get_allele_count (diploid : String) : ℕ :=
  match diploid.data with
  | [a, b] => if a = b then 2 else 1
  | _ => 0

/-- Round-half-to-even to an integer (the rounding used by Python's `round`). -/
def rne (x : ℚ) : ℤ :=
  if x - x.floor < 1/2 then x.floor
  else if 1/2 < x - x.floor then x.floor + 1
  else if x.floor % 2 = 0 then x.floor else x.floor + 1

/-- Python `round(x, n)` on rationals. -/
def pyRound (x : ℚ) (n : ℕ) : ℚ :=
  (rne (x * 10 ^ n) : ℚ) / 10 ^ n

/-- The `RISK_LABELS` table: `RISK_LABELS.get(language, RISK_LABELS['en']).get(risk_level, 'LOW')`. -/
def riskLabel (language level : String) : String :=
  if language = "tr" then
    if level = "low" then "DÜŞÜK"
    else if level = "medium" then "ORTA"
    else if level = "high" then "YÜKSEK"
    else "LOW"
  else
    if level = "low" then "LOW"
    else if level = "medium" then "MEDIUM"
    else if level = "high" then "HIGH"
    else "LOW"

/-- `RiskScorer._classify_risk`. -/
def classify_risk (sc : RiskScorer) (percentage : ℚ) : String :=
  let level :=
    if percentage < sc.thresholds.1 then "low"
    else if percentage < sc.thresholds.2 then "medium"
    else "high"
  riskLabel sc.language level

/-- One iteration of the variant loop in `RiskScorer._calculate_trait_score`,
threading the accumulator `(score, max_possible_with_data, variant_details)`. -/
def variantStep (gd : GenotypeMap) (acc : ℚ × ℚ × List Detail) (v : Variant) :
    ℚ × ℚ × List Detail :=
  let score := acc.1
  let maxp := acc.2.1
  let details := acc.2.2
  let weight := v.weight.getD 1
  let direction := v.direction.getD "risk_up"
  if direction = "neutral" then
    (score, maxp, details ++ [Detail.neutral v.rsid])
  else
    match v.pointMap with
    | some point_map =>
      -- weight = variant['scoring'].get('default_weight', 1.0)
      let pweight := (v.scoring.bind Scoring.default_weight).getD 1
      match v.rsid.bind (gget gd) with
      | none => (score, maxp, details ++ [Detail.missing v.rsid])
      | some diploid =>
        if diploid.length ≠ 2 then
          (score, maxp, details ++ [Detail.missing v.rsid])
        else
          let allele_count := get_allele_count diploid
          let points := pmGet point_map (toString allele_count)
          let trait_score :=
            if direction = "risk_up" then points * pweight
            else if direction = "risk_down" then
              if points = 0 ∨ points = 1 ∨ points = 2 then (2 - points) * pweight else 0
            else if direction = "contextual" then points * pweight
            else 0
          (score + trait_score, maxp + 2 * pweight,
           details ++ [Detail.scoredPoints v.rsid diploid allele_count points
                        direction pweight trait_score])
    | none =>
      -- legacy branch: no genotype-points map
      match v.rsid.bind (gget gd) with
      | none => (score, maxp, details)
      | some diploid =>
        if diploid.length ≠ 2 then
          (score, maxp, details)
        else
          let allele_count := get_allele_count diploid
          let trait_score :=
            if direction = "risk_up" then (allele_count : ℚ) * weight
            else if direction = "risk_down" then (2 - (allele_count : ℚ)) * weight
            else if direction = "contextual" then (allele_count : ℚ) * weight
            else 0
          (score + trait_score, maxp + 2 * weight,
           details ++ [Detail.scoredLegacy v.rsid diploid allele_count
                        direction weight trait_score])

/-- The per-trait result dict assembled by `_calculate_trait_score`. -/
structure TraitResult where
  name : String
  normalized_score : ℚ
  score : ℚ
  max_possible_score : ℚ
  percentage : ℚ
  classification : String
  domain : String
  details : List Detail
  group_name : Option String := none
deriving Repr, DecidableEq

/-- `RiskScorer._calculate_trait_score`. -/
def calculate_trait_score (sc : RiskScorer) (trait_name : String)
    (trait_info : TraitNode) (gd : GenotypeMap) : TraitResult :=
  let acc := (trait_info.variants.getD []).foldl (variantStep gd) (0, 0, [])
  let score := acc.1
  let max_possible_with_data := acc.2.1
  let percentage := if max_possible_with_data > 0
    then score / max_possible_with_data * 100 else 0
  { name := trait_name
    normalized_score := pyRound percentage 1
    score := score
    max_possible_score := max_possible_with_data
    percentage := pyRound percentage 2
    classification := classify_risk sc percentage
    domain := trait_info.domain.getD "Unknown"
    details := acc.2.2 }

/-- `RiskScorer._process_group` (the result dict is modelled as the ordered
list of `results[name] = result` updates). -/
def process_group (sc : RiskScorer) (g : TaxGroup) (gd : GenotypeMap) :
    List (String × TraitResult) :=
  let group_name := g.name.getD "Unknown"
  g.traits.flatMap fun t =>
    match t.subtraits with
    | some subs =>
      subs.map fun st =>
        (st.name, { calculate_trait_score sc st.name st gd with
                      group_name := some group_name })
    | none =>
      match t.variants with
      | some _ =>
        [(t.name, { calculate_trait_score sc t.name t.asTraitNode gd with
                      group_name := some group_name })]
      | none => []

/-- `RiskScorer.calculate_score` (result dict as the ordered list of updates). -/
def calculate_score (sc : RiskScorer) (gd : GenotypeMap) :
    List (String × TraitResult) :=
  match sc.schema.taxonomy with
  | some groups => groups.flatMap fun g => process_group sc g gd
  | none =>
    sc.schema.traits.map fun nt => (nt.1, calculate_trait_score sc nt.1 nt.2 gd)

/-- State-threading form of `calculate_score`: the method reads
`self.schema` / `self.thresholds` / `self.language` and the `genotype_data`
argument but contains no assignment to any of them, so the translation
returns the scorer state and the genotype map that result from the call
alongside the result value. -/
def calculate_score_run (sc : RiskScorer) (gd : GenotypeMap) :
    List (String × TraitResult) × RiskScorer × GenotypeMap :=
  (calculate_score sc gd, sc, gd)

/-! ## Helper lemmas about the embedding -/

theorem rat_floor_eq (x : ℚ) : x.floor = ⌊x⌋ := by
  rw [Rat.floor_def, Rat.floor_def']

theorem rne_zero : rne 0 = 0 := by
  unfold rne
  rw [rat_floor_eq]
  norm_num

theorem floor_le_rne (x : ℚ) : ⌊x⌋ ≤ rne x := by
  unfold rne
  rw [rat_floor_eq]
  split
  · exact le_refl _
  · split
    · exact le_of_lt (lt_add_one _)
    · split
      · exact le_refl _
      · exact le_of_lt (lt_add_one _)

theorem rne_le_ceil (x : ℚ) : rne x ≤ ⌈x⌉ := by
  have hfrac : ¬ (x - ⌊x⌋ < 1/2) → ⌊x⌋ + 1 ≤ ⌈x⌉ := by
    intro h
    have h2 : (1:ℚ)/2 ≤ x - ⌊x⌋ := le_of_not_lt h
    have h3 : (⌊x⌋ : ℚ) < x := by linarith
    exact Int.lt_ceil.mpr h3
  unfold rne
  rw [rat_floor_eq]
  split
  · exact Int.floor_le_ceil x
  · split
    · next h _ => exact hfrac h
    · split
      · next h _ _ => exact le_trans (le_of_lt (lt_add_one _)) (hfrac h)
      · next h _ _ => exact hfrac h

theorem rne_nonneg {x : ℚ} (hx : 0 ≤ x) : 0 ≤ rne x :=
  le_trans (Int.le_floor.mpr (by exact_mod_cast hx)) (floor_le_rne x)

theorem rne_le_of_le {x : ℚ} {b : ℤ} (h : x ≤ b) : rne x ≤ b :=
  le_trans (rne_le_ceil x) (Int.ceil_le.mpr (by exact_mod_cast h))

theorem pyRound_nonneg {x : ℚ} (hx : 0 ≤ x) (n : ℕ) : 0 ≤ pyRound x n := by
  unfold pyRound
  apply div_nonneg _ (by positivity)
  exact_mod_cast rne_nonneg (by positivity)

theorem pyRound_le_hundred {x : ℚ} (hx : x ≤ 100) (n : ℕ) : pyRound x n ≤ 100 := by
  unfold pyRound
  rw [div_le_iff₀ (by positivity)]
  have h1 : x * 10 ^ n ≤ ((100 * 10 ^ n : ℤ) : ℚ) := by
    push_cast
    have := mul_le_mul_of_nonneg_right hx (by positivity : (0:ℚ) ≤ 10 ^ n)
    linarith
  have h2 : rne (x * 10 ^ n) ≤ 100 * 10 ^ n := rne_le_of_le h1
  calc ((rne (x * 10 ^ n) : ℚ)) ≤ ((100 * 10 ^ n : ℤ) : ℚ) := by exact_mod_cast h2
    _ = 100 * 10 ^ n := by push_cast; ring

theorem pyRound_zero (n : ℕ) : pyRound 0 n = 0 := by
  unfold pyRound
  rw [zero_mul, rne_zero]
  simp

theorem pmGet_bounds {pm : List (String × ℚ)}
    (h : ∀ kv ∈ pm, 0 ≤ kv.2 ∧ kv.2 ≤ 2) (k : String) :
    0 ≤ pmGet pm k ∧ pmGet pm k ≤ 2 := by
  unfold pmGet
  cases hf : pm.find? (fun kv => kv.1 = k) with
  | none => simp
  | some kv =>
    have hmem : kv ∈ pm := List.mem_of_find?_eq_some hf
    simpa using h kv hmem

theorem get_allele_count_le (d : String) : get_allele_count d ≤ 2 := by
  unfold get_allele_count
  split
  · split <;> omega
  · omega

/-! ## Well-formedness of schema numeric data

`Variant.Wf` states what the spec's data model promises about a variant:
the top-level weight and the scoring default weight are nonnegative, and
every genotype-points value lies in `[0, 2]`. -/

def Variant.Wf (v : Variant) : Prop :=
  0 ≤ v.weight.getD 1 ∧
  0 ≤ (v.scoring.bind Scoring.default_weight).getD 1 ∧
  ∀ kv ∈ v.pointMap.getD [], 0 ≤ kv.2 ∧ kv.2 ≤ 2

instance (v : Variant) : Decidable v.Wf := by
  unfold Variant.Wf; infer_instance

def TraitNode.Wf (t : TraitNode) : Prop :=
  ∀ v ∈ t.variants.getD [], v.Wf

instance (t : TraitNode) : Decidable t.Wf := by
  unfold TraitNode.Wf; infer_instance

def GroupTrait.Wf (t : GroupTrait) : Prop :=
  (∀ v ∈ t.variants.getD [], v.Wf) ∧ ∀ st ∈ t.subtraits.getD [], st.Wf

instance (t : GroupTrait) : Decidable t.Wf := by
  unfold GroupTrait.Wf; infer_instance

def TaxGroup.Wf (g : TaxGroup) : Prop :=
  ∀ t ∈ g.traits, t.Wf

instance (g : TaxGroup) : Decidable g.Wf := by
  unfold TaxGroup.Wf; infer_instance

def Schema.Wf (s : Schema) : Prop :=
  (∀ g ∈ s.taxonomy.getD [], g.Wf) ∧ ∀ nt ∈ s.traits, nt.2.Wf

instance (s : Schema) : Decidable s.Wf := by
  unfold Schema.Wf; infer_instance

/-! ## Claim theorems -/

/-- C8: for a schema with one trait holding one variant of weight 2.0,
direction risk_up and genotype "AA" yield score 4.0, max 4.0,
percentage 100.0, classification HIGH under the default thresholds [33, 66];
direction risk_down and genotype "AG" yield score 2.0, max 4.0,
percentage 50.0, classification MEDIUM. -/
theorem c8_worked_scenarios :
    calculate_score
        (mkRiskScorer ⟨none, [("t", ⟨"t", none, some [⟨some "rs1", some 2, none, none⟩]⟩)]⟩)
        [("rs1", "AA")]
      = [("t", { name := "t", normalized_score := 100, score := 4, max_possible_score := 4,
                 percentage := 100, classification := "HIGH", domain := "Unknown",
                 details := [Detail.scoredLegacy (some "rs1") "AA" 2 "risk_up" 2 4] })] ∧
    calculate_score
        (mkRiskScorer ⟨none, [("t", ⟨"t", none, some [⟨some "rs1", some 2, some "risk_down", none⟩]⟩)]⟩)
        [("rs1", "AG")]
      = [("t", { name := "t", normalized_score := 50, score := 2, max_possible_score := 4,
                 percentage := 50, classification := "MEDIUM", domain := "Unknown",
                 details := [Detail.scoredLegacy (some "rs1") "AG" 1 "risk_down" 2 2] })] := by
  constructor
  · have h2 : "AA".length = 2 := by decide
    have ha : get_allele_count "AA" = 2 := by decide
    have hg : gget [("rs1", "AA")] "rs1" = some "AA" := rfl
    have hstep : variantStep [("rs1", "AA")] (0, 0, []) ⟨some "rs1", some 2, none, none⟩
        = (4, 4, [Detail.scoredLegacy (some "rs1") "AA" 2 "risk_up" 2 4]) := by
      simp [variantStep, Variant.pointMap, hg, h2, ha]
      all_goals norm_num
    simp [calculate_score, mkRiskScorer, calculate_trait_score, hstep, classify_risk, riskLabel]
    norm_num [pyRound, rne, rat_floor_eq, Int.fract]
    all_goals decide
  · have h2 : "AG".length = 2 := by decide
    have ha : get_allele_count "AG" = 1 := by decide
    have hg : gget [("rs1", "AG")] "rs1" = some "AG" := rfl
    have hstep : variantStep [("rs1", "AG")] (0, 0, []) ⟨some "rs1", some 2, some "risk_down", none⟩
        = (2, 4, [Detail.scoredLegacy (some "rs1") "AG" 1 "risk_down" 2 2]) := by
      simp [variantStep, Variant.pointMap, hg, h2, ha]
      all_goals norm_num
    simp [calculate_score, mkRiskScorer, calculate_trait_score, hstep, classify_risk, riskLabel]
    norm_num [pyRound, rne, rat_floor_eq, Int.fract]
    all_goals decide

/-- C9: `calculate_score` is a pure function of the scorer state and the
genotype map: the state-threading embedding returns the scorer and the
genotype map unchanged, and a second call on the post-call state returns
the same result mapping. -/
theorem c9_idempotent_pure (sc : RiskScorer) (gd : GenotypeMap) :
    (calculate_score_run sc gd).2.1 = sc ∧
    (calculate_score_run sc gd).2.2 = gd ∧
    (calculate_score_run (calculate_score_run sc gd).2.1
        (calculate_score_run sc gd).2.2).1 = (calculate_score_run sc gd).1 :=
  ⟨rfl, rfl, rfl⟩

/-- C1 counterexample: the code never derives an allele count from a
zygosity tag: "wt" has two distinct characters and is scored as a
heterozygous diploid pair (allele count 1, not the claimed 0), while
"het" and "hom" have three characters and decode to allele count 0 (not 1
and 2); a trait scored against the map {"rs1": "wt"} gets score 1, not 0. -/
theorem c1_counterexample :
    get_allele_count "wt" = 1 ∧ get_allele_count "het" = 0 ∧ get_allele_count "hom" = 0 ∧
    calculate_score
        (mkRiskScorer ⟨none, [("t", ⟨"t", none, some [⟨some "rs1", none, none, none⟩]⟩)]⟩)
        [("rs1", "wt")]
      = [("t", { name := "t", normalized_score := 50, score := 1, max_possible_score := 2,
                 percentage := 50, classification := "MEDIUM", domain := "Unknown",
                 details := [Detail.scoredLegacy (some "rs1") "wt" 1 "risk_up" 1 1] })] ∧
    (1 : ℚ) ≠ 0 := by
  refine ⟨by decide, by decide, by decide, ?_, by norm_num⟩
  have h2 : "wt".length = 2 := by decide
  have ha : get_allele_count "wt" = 1 := by decide
  have hg : gget [("rs1", "wt")] "rs1" = some "wt" := rfl
  have hstep : variantStep [("rs1", "wt")] (0, 0, []) ⟨some "rs1", none, none, none⟩
      = (1, 2, [Detail.scoredLegacy (some "rs1") "wt" 1 "risk_up" 1 1]) := by
    simp [variantStep, Variant.pointMap, hg, h2, ha]
    all_goals norm_num
  simp [calculate_score, mkRiskScorer, calculate_trait_score, hstep, classify_risk, riskLabel]
  norm_num [pyRound, rne, rat_floor_eq, Int.fract]
  all_goals decide

/-- C2 counterexample: with a genotype-points override whose value for key
"2" is 5 (outside [0, 2]) and direction risk_up, the produced trait result
has score 5 > max_possible_score 2 and percentage 250 > 100: the claimed
invariants fail for point values outside [0, 2]. -/
theorem c2_counterexample :
    calculate_score
        (mkRiskScorer ⟨none, [("t", ⟨"t", none,
            some [⟨some "rs1", none, none, some ⟨some 1, some [("2", 5)]⟩⟩]⟩)]⟩)
        [("rs1", "AA")]
      = [("t", { name := "t", normalized_score := 250, score := 5, max_possible_score := 2,
                 percentage := 250, classification := "HIGH", domain := "Unknown",
                 details := [Detail.scoredPoints (some "rs1") "AA" 2 5 "risk_up" 1 5] })] ∧
    ¬ ((250 : ℚ) ≤ 100) ∧ ¬ ((5 : ℚ) ≤ 2) := by
  refine ⟨?_, by norm_num, by norm_num⟩
  have h2 : "AA".length = 2 := by decide
  have ha : get_allele_count "AA" = 2 := by decide
  have hg : gget [("rs1", "AA")] "rs1" = some "AA" := rfl
  have hpm : pmGet [("2", (5:ℚ))] (toString (2:ℕ)) = 5 := rfl
  have hstep : variantStep [("rs1", "AA")] (0, 0, [])
      ⟨some "rs1", none, none, some ⟨some 1, some [("2", 5)]⟩⟩
      = (5, 2, [Detail.scoredPoints (some "rs1") "AA" 2 5 "risk_up" 1 5]) := by
    simp [variantStep, Variant.pointMap, hg, h2, ha, hpm]
    all_goals norm_num
  simp [calculate_score, mkRiskScorer, calculate_trait_score, hstep, classify_risk, riskLabel]
  norm_num [pyRound, rne, rat_floor_eq, Int.fract]
  all_goals decide

/-- C5 counterexample: a risk_down variant scored against the homozygous
genotype "AA" has usable genotype data (it contributes 2 to
max_possible_score) yet the trait percentage is 0, refuting "the
percentage is nonzero whenever at least one variant with a scoring
direction has a usable genotype". -/
theorem c5_counterexample :
    calculate_score
        (mkRiskScorer ⟨none, [("t", ⟨"t", none, some [⟨some "rs1", none, some "risk_down", none⟩]⟩)]⟩)
        [("rs1", "AA")]
      = [("t", { name := "t", normalized_score := 0, score := 0, max_possible_score := 2,
                 percentage := 0, classification := "LOW", domain := "Unknown",
                 details := [Detail.scoredLegacy (some "rs1") "AA" 2 "risk_down" 1 0] })] ∧
    ¬ ((2 : ℚ) = 0) := by
  refine ⟨?_, by norm_num⟩
  have h2 : "AA".length = 2 := by decide
  have ha : get_allele_count "AA" = 2 := by decide
  have hg : gget [("rs1", "AA")] "rs1" = some "AA" := rfl
  have hstep : variantStep [("rs1", "AA")] (0, 0, []) ⟨some "rs1", none, some "risk_down", none⟩
      = (0, 2, [Detail.scoredLegacy (some "rs1") "AA" 2 "risk_down" 1 0]) := by
    simp [variantStep, Variant.pointMap, hg, h2, ha]
    all_goals norm_num
  simp [calculate_score, mkRiskScorer, calculate_trait_score, hstep, classify_risk, riskLabel]
  norm_num [pyRound, rne, rat_floor_eq, Int.fract]
  all_goals decide

/-- C6 counterexample: a legacy-mode variant (no genotype-points map) whose
rsid is absent from the genotype map contributes 0 to score and
max-possible but appends NO detail string: the details list stays empty,
refuting "a detail string noting the variant is missing is appended". -/
theorem c6_counterexample :
    calculate_score
        (mkRiskScorer ⟨none, [("t", ⟨"t", none, some [⟨some "rs1", none, none, none⟩]⟩)]⟩)
        []
      = [("t", { name := "t", normalized_score := 0, score := 0, max_possible_score := 0,
                 percentage := 0, classification := "LOW", domain := "Unknown",
                 details := [] })] := by
  have hg : gget [] "rs1" = none := rfl
  have hstep : variantStep [] (0, 0, []) ⟨some "rs1", none, none, none⟩ = (0, 0, []) := by
    simp [variantStep, Variant.pointMap, hg]
  simp [calculate_score, mkRiskScorer, calculate_trait_score, hstep, classify_risk, riskLabel]
  norm_num [pyRound, rne, rat_floor_eq, Int.fract]
  all_goals decide

/-- C3: with thresholds `(lo, hi)`, `lo < hi`, and English labels, the
classifier returns LOW exactly when `p < lo`, MEDIUM exactly when
`lo ≤ p < hi`, HIGH exactly when `hi ≤ p`; in particular `p = lo` lands in
MEDIUM and `p = hi` in HIGH. -/
theorem c3_threshold_partition (schema : Schema) (lo hi p : ℚ) (h : lo < hi) :
    (classify_risk ⟨schema, (lo, hi), "en"⟩ p = "LOW" ↔ p < lo) ∧
    (classify_risk ⟨schema, (lo, hi), "en"⟩ p = "MEDIUM" ↔ lo ≤ p ∧ p < hi) ∧
    (classify_risk ⟨schema, (lo, hi), "en"⟩ p = "HIGH" ↔ hi ≤ p) ∧
    classify_risk ⟨schema, (lo, hi), "en"⟩ lo = "MEDIUM" ∧
    classify_risk ⟨schema, (lo, hi), "en"⟩ hi = "HIGH" := by
  have hcl : ∀ q : ℚ, classify_risk ⟨schema, (lo, hi), "en"⟩ q
      = if q < lo then "LOW" else if q < hi then "MEDIUM" else "HIGH" := by
    intro q
    simp only [classify_risk, riskLabel]
    split_ifs <;> simp_all
  simp only [hcl]
  refine ⟨?_, ?_, ?_, ?_, ?_⟩
  · split_ifs with h1 h2
    · exact iff_of_true rfl h1
    · exact iff_of_false (by decide) h1
    · exact iff_of_false (by decide) h1
  · split_ifs with h1 h2
    · exact iff_of_false (by decide) (fun hx => absurd h1 (not_lt.mpr hx.1))
    · exact iff_of_true rfl ⟨le_of_not_lt h1, h2⟩
    · exact iff_of_false (by decide) (fun hx => absurd hx.2 h2)
  · split_ifs with h1 h2
    · exact iff_of_false (by decide) (not_le.mpr (lt_trans h1 h))
    · exact iff_of_false (by decide) (not_le.mpr h2)
    · exact iff_of_true rfl (le_of_not_lt h2)
  · simp [lt_irrefl, h]
  · have h1 : ¬ hi < lo := not_lt.mpr (le_of_lt h)
    simp [h1, lt_irrefl]

/-- C3 witness: thresholds [33, 66], percentage 33 classifies as MEDIUM. -/
theorem c3_threshold_partition_witness :
    (33 : ℚ) < 66 ∧ classify_risk ⟨⟨none, []⟩, (33, 66), "en"⟩ 33 = "MEDIUM" :=
  ⟨by norm_num, (c3_threshold_partition ⟨none, []⟩ 33 66 33 (by norm_num)).2.2.2.1⟩

/-- C7: a variant whose effect direction is "neutral" contributes 0 to both
the trait's score and its max_possible_score (appending it to a trait
changes neither score, max, percentage nor classification) and appends the
"Neutral (phenotypic only, not scored)" detail string. -/
theorem c7_neutral_unscored (sc : RiskScorer) (trait_name : String) (dom : Option String)
    (gd : GenotypeMap) (vs : List Variant) (v : Variant)
    (hdir : v.direction.getD "risk_up" = "neutral") :
    (∀ s m ds, variantStep gd (s, m, ds) v = (s, m, ds ++ [Detail.neutral v.rsid])) ∧
    (calculate_trait_score sc trait_name ⟨trait_name, dom, some (vs ++ [v])⟩ gd).score
      = (calculate_trait_score sc trait_name ⟨trait_name, dom, some vs⟩ gd).score ∧
    (calculate_trait_score sc trait_name ⟨trait_name, dom, some (vs ++ [v])⟩ gd).max_possible_score
      = (calculate_trait_score sc trait_name ⟨trait_name, dom, some vs⟩ gd).max_possible_score ∧
    (calculate_trait_score sc trait_name ⟨trait_name, dom, some (vs ++ [v])⟩ gd).percentage
      = (calculate_trait_score sc trait_name ⟨trait_name, dom, some vs⟩ gd).percentage ∧
    (calculate_trait_score sc trait_name ⟨trait_name, dom, some (vs ++ [v])⟩ gd).classification
      = (calculate_trait_score sc trait_name ⟨trait_name, dom, some vs⟩ gd).classification ∧
    (calculate_trait_score sc trait_name ⟨trait_name, dom, some (vs ++ [v])⟩ gd).details
      = (calculate_trait_score sc trait_name ⟨trait_name, dom, some vs⟩ gd).details
        ++ [Detail.neutral v.rsid] := by
  have hstep : ∀ s m ds, variantStep gd (s, m, ds) v = (s, m, ds ++ [Detail.neutral v.rsid]) := by
    intro s m ds
    simp [variantStep, hdir]
  have hfold : (vs ++ [v]).foldl (variantStep gd) (0, 0, [])
      = ((vs.foldl (variantStep gd) (0, 0, [])).1,
         (vs.foldl (variantStep gd) (0, 0, [])).2.1,
         (vs.foldl (variantStep gd) (0, 0, [])).2.2 ++ [Detail.neutral v.rsid]) := by
    rw [List.foldl_append]
    rcases hvs : vs.foldl (variantStep gd) (0, 0, []) with ⟨s, m, ds⟩
    simp [List.foldl, hstep]
  refine ⟨hstep, ?_, ?_, ?_, ?_, ?_⟩ <;>
    simp [calculate_trait_score, hfold]

/-- C7 witness: a concrete neutral variant appended to an empty trait
appends exactly the neutral detail. -/
theorem c7_neutral_unscored_witness :
    (Variant.direction ⟨some "rs1", none, some "neutral", none⟩).getD "risk_up" = "neutral" ∧
    (calculate_trait_score (mkRiskScorer ⟨none, []⟩) "t"
        ⟨"t", none, some ([] ++ [⟨some "rs1", none, some "neutral", none⟩])⟩ []).details
      = (calculate_trait_score (mkRiskScorer ⟨none, []⟩) "t" ⟨"t", none, some []⟩ []).details
        ++ [Detail.neutral (some "rs1")] :=
  ⟨rfl, (c7_neutral_unscored (mkRiskScorer ⟨none, []⟩) "t" none [] []
      ⟨some "rs1", none, some "neutral", none⟩ rfl).2.2.2.2.2⟩

/-- C6 amended: a non-neutral variant whose rsid is absent from the
genotype map, or whose raw value does not have exactly two characters,
contributes 0 to both score and max-possible; a "Missing" detail string is
appended only in genotype-points mode, while in legacy mode the variant is
skipped with no detail line. -/
theorem c6_missing_genotype (gd : GenotypeMap) (s m : ℚ) (ds : List Detail) (v : Variant)
    (hdir : v.direction.getD "risk_up" ≠ "neutral")
    (hmiss : v.rsid.bind (gget gd) = none
      ∨ ∃ d, v.rsid.bind (gget gd) = some d ∧ d.length ≠ 2) :
    variantStep gd (s, m, ds) v =
      (s, m, if (Variant.pointMap v).isSome then ds ++ [Detail.missing v.rsid] else ds) := by
  cases hpm : v.pointMap with
  | none =>
    rcases hmiss with hnone | ⟨d, hd, hlen⟩
    · simp [variantStep, hdir, hpm, hnone]
    · simp [variantStep, hdir, hpm, hd, hlen]
  | some pm =>
    rcases hmiss with hnone | ⟨d, hd, hlen⟩
    · simp [variantStep, hdir, hpm, hnone]
    · simp [variantStep, hdir, hpm, hd, hlen]

/-- C6 witness: a point-map variant with absent rsid appends the Missing
detail and leaves score and max untouched. -/
theorem c6_missing_genotype_witness :
    (Variant.direction ⟨some "rs1", none, none, some ⟨none, some []⟩⟩).getD "risk_up" ≠ "neutral" ∧
    variantStep [] (0, 0, []) ⟨some "rs1", none, none, some ⟨none, some []⟩⟩
      = (0, 0, if (Variant.pointMap ⟨some "rs1", none, none, some ⟨none, some []⟩⟩).isSome
               then [] ++ [Detail.missing (some "rs1")] else []) :=
  ⟨by decide, c6_missing_genotype [] 0 0 [] ⟨some "rs1", none, none, some ⟨none, some []⟩⟩
      (by decide) (Or.inl rfl)⟩

/-- C1 amended: genotype values are always interpreted as diploid strings
(there is no zygosity-tag recognition): for a non-neutral variant without
a genotype-points map whose looked-up genotype has exactly two characters,
the contribution is computed from `get_allele_count` of the raw value
(2 for two equal characters, 1 for two distinct ones), so the tag "wt"
scores as a heterozygous pair rather than as allele count 0. -/
theorem c1_diploid_only (gd : GenotypeMap) (s m : ℚ) (ds : List Detail) (v : Variant)
    (d : String)
    (hdir : v.direction.getD "risk_up" ≠ "neutral")
    (hpm : v.pointMap = none)
    (hd : v.rsid.bind (gget gd) = some d)
    (hlen : d.length = 2) :
    variantStep gd (s, m, ds) v =
      (s + (if v.direction.getD "risk_up" = "risk_up"
              then (get_allele_count d : ℚ) * v.weight.getD 1
            else if v.direction.getD "risk_up" = "risk_down"
              then (2 - (get_allele_count d : ℚ)) * v.weight.getD 1
            else if v.direction.getD "risk_up" = "contextual"
              then (get_allele_count d : ℚ) * v.weight.getD 1
            else 0),
       m + 2 * v.weight.getD 1,
       ds ++ [Detail.scoredLegacy v.rsid d (get_allele_count d) (v.direction.getD "risk_up")
                (v.weight.getD 1)
                (if v.direction.getD "risk_up" = "risk_up"
                   then (get_allele_count d : ℚ) * v.weight.getD 1
                 else if v.direction.getD "risk_up" = "risk_down"
                   then (2 - (get_allele_count d : ℚ)) * v.weight.getD 1
                 else if v.direction.getD "risk_up" = "contextual"
                   then (get_allele_count d : ℚ) * v.weight.getD 1
                 else 0)]) := by
  simp [variantStep, hdir, hpm, hd, hlen]

/-- C1 witness: the zygosity tag "wt" is two distinct characters, so a
legacy variant looking it up is scored with allele count 1. -/
theorem c1_diploid_only_witness :
    "wt".length = 2 ∧
    variantStep [("rs1", "wt")] (0, 0, []) ⟨some "rs1", none, none, none⟩
      = (1, 2, [Detail.scoredLegacy (some "rs1") "wt" 1 "risk_up" 1 1]) := by
  refine ⟨by decide, ?_⟩
  rw [c1_diploid_only [("rs1", "wt")] 0 0 [] ⟨some "rs1", none, none, none⟩ "wt"
    (by decide) rfl rfl (by decide)]
  have ha : get_allele_count "wt" = 1 := by decide
  simp [ha]

/-- C4: in genotype-points mode with a well-formed two-character genotype,
the weight used is `scoring.default_weight` (defaulting to 1, not the
top-level weight), points are looked up by the allele count's string key
with default 0 (`pmGet`), risk_up/contextual contribute points × weight,
risk_down contributes (2 − points) × weight only for points in {0, 1, 2}
and 0 otherwise, and max-possible grows by 2 × weight for every direction. -/
theorem c4_point_map_mode (gd : GenotypeMap) (s m : ℚ) (ds : List Detail) (v : Variant)
    (pm : List (String × ℚ)) (d : String)
    (hpm : v.pointMap = some pm)
    (hdir : v.direction.getD "risk_up" ≠ "neutral")
    (hd : v.rsid.bind (gget gd) = some d)
    (hlen : d.length = 2) :
    (variantStep gd (s, m, ds) v).2.1
      = m + 2 * ((v.scoring.bind Scoring.default_weight).getD 1) ∧
    ((v.direction.getD "risk_up" = "risk_up" ∨ v.direction.getD "risk_up" = "contextual") →
      (variantStep gd (s, m, ds) v).1
        = s + pmGet pm (toString (get_allele_count d))
              * ((v.scoring.bind Scoring.default_weight).getD 1)) ∧
    (v.direction.getD "risk_up" = "risk_down" →
      (variantStep gd (s, m, ds) v).1
        = s + (if pmGet pm (toString (get_allele_count d)) = 0
                  ∨ pmGet pm (toString (get_allele_count d)) = 1
                  ∨ pmGet pm (toString (get_allele_count d)) = 2
               then (2 - pmGet pm (toString (get_allele_count d)))
                      * ((v.scoring.bind Scoring.default_weight).getD 1)
               else 0)) := by
  refine ⟨?_, ?_, ?_⟩
  · simp [variantStep, hdir, hpm, hd, hlen]
  · rintro (h | h) <;> simp [variantStep, hdir, hpm, hd, hlen, h]
  · intro h
    simp [variantStep, hdir, hpm, hd, hlen, h]

/-- C4 witness: a risk_down point-map variant with default_weight 3
(top-level weight 99 ignored), genotype "AG", point map {"1": 1}:
contribution (2 − 1) × 3 = 3, max contribution 2 × 3 = 6. -/
theorem c4_point_map_mode_witness :
    Variant.pointMap ⟨some "rs1", some 99, some "risk_down", some ⟨some 3, some [("1", 1)]⟩⟩
      = some [("1", 1)] ∧
    (variantStep [("rs1", "AG")] (0, 0, [])
        ⟨some "rs1", some 99, some "risk_down", some ⟨some 3, some [("1", 1)]⟩⟩).1 = 3 ∧
    (variantStep [("rs1", "AG")] (0, 0, [])
        ⟨some "rs1", some 99, some "risk_down", some ⟨some 3, some [("1", 1)]⟩⟩).2.1 = 6 := by
  have h := c4_point_map_mode [("rs1", "AG")] 0 0 []
    ⟨some "rs1", some 99, some "risk_down", some ⟨some 3, some [("1", 1)]⟩⟩
    [("1", 1)] "AG" rfl (by decide) rfl (by decide)
  have ha : get_allele_count "AG" = 1 := by decide
  have hp : pmGet [("1", (1:ℚ))] (toString (1:ℕ)) = 1 := rfl
  refine ⟨rfl, ?_, ?_⟩
  · rw [h.2.2 rfl, ha, hp]
    norm_num
  · rw [h.1]
    norm_num

/-- C5 amended: the percentage field is 0 whenever max-possible is not
positive, and otherwise equals `round(100 × score / max_possible, 2)`;
`normalized_score` is the 1-decimal rounding of the same ratio. (By
`c5_counterexample`, the percentage can also be 0 when a scoring variant
did have usable genotype data, namely when the summed score is 0.) -/
theorem c5_percentage_formula (sc : RiskScorer) (trait_name : String) (ti : TraitNode)
    (gd : GenotypeMap) :
    (calculate_trait_score sc trait_name ti gd).percentage
      = (if 0 < (calculate_trait_score sc trait_name ti gd).max_possible_score
         then pyRound ((calculate_trait_score sc trait_name ti gd).score
                / (calculate_trait_score sc trait_name ti gd).max_possible_score * 100) 2
         else 0) ∧
    (calculate_trait_score sc trait_name ti gd).normalized_score
      = (if 0 < (calculate_trait_score sc trait_name ti gd).max_possible_score
         then pyRound ((calculate_trait_score sc trait_name ti gd).score
                / (calculate_trait_score sc trait_name ti gd).max_possible_score * 100) 1
         else 0) := by
  simp only [calculate_trait_score]
  by_cases hm : 0 < ((ti.variants.getD []).foldl (variantStep gd) (0, 0, [])).2.1 <;>
    simp [hm, pyRound_zero]

/-- Any of the three possible contribution shapes lies in [0, 2·w] when the
points value lies in [0, 2] and the weight is nonnegative. -/
theorem dirScore_bounds {p w ts : ℚ} (hp0 : 0 ≤ p) (hp2 : p ≤ 2) (hw : 0 ≤ w)
    (hts : ts = p * w ∨ ts = (2 - p) * w ∨ ts = 0) : 0 ≤ ts ∧ ts ≤ 2 * w := by
  rcases hts with h | h | h <;> subst h <;> constructor <;> nlinarith

/-- One loop iteration moves the accumulator by `(t, u)` with `0 ≤ t ≤ u`:
the score never decreases by more than the max-possible does. -/
theorem variantStep_delta (gd : GenotypeMap) (acc : ℚ × ℚ × List Detail) (v : Variant)
    (hv : v.Wf) :
    acc.1 ≤ (variantStep gd acc v).1 ∧
    (variantStep gd acc v).1 - acc.1 ≤ (variantStep gd acc v).2.1 - acc.2.1 := by
  rcases acc with ⟨s, m, ds⟩
  obtain ⟨hw, hdw, hpts⟩ := hv
  by_cases hneu : v.direction.getD "risk_up" = "neutral"
  · simp [variantStep, hneu]
  · cases hpm : v.pointMap with
    | some pm =>
      cases hd : v.rsid.bind (gget gd) with
      | none => simp [variantStep, hneu, hpm, hd]
      | some d =>
        by_cases hlen : d.length = 2
        · have hpm' : v.pointMap.getD [] = pm := by rw [hpm]; rfl
          rw [hpm'] at hpts
          have hb := pmGet_bounds hpts (toString (get_allele_count d))
          have hts := @dirScore_bounds (pmGet pm (toString (get_allele_count d)))
            ((v.scoring.bind Scoring.default_weight).getD 1)
            (if v.direction.getD "risk_up" = "risk_up"
                then pmGet pm (toString (get_allele_count d))
                  * (v.scoring.bind Scoring.default_weight).getD 1
              else if v.direction.getD "risk_up" = "risk_down" then
                if pmGet pm (toString (get_allele_count d)) = 0
                    ∨ pmGet pm (toString (get_allele_count d)) = 1
                    ∨ pmGet pm (toString (get_allele_count d)) = 2
                  then (2 - pmGet pm (toString (get_allele_count d)))
                    * (v.scoring.bind Scoring.default_weight).getD 1
                  else 0
              else if v.direction.getD "risk_up" = "contextual"
                then pmGet pm (toString (get_allele_count d))
                  * (v.scoring.bind Scoring.default_weight).getD 1
              else 0)
            hb.1 hb.2 hdw
            (by split_ifs <;> tauto)
          simp only [variantStep, hneu, hpm, hd, hlen]
          simp
          constructor <;> linarith [hts.1, hts.2]
        · simp [variantStep, hneu, hpm, hd, hlen]
    | none =>
      cases hd : v.rsid.bind (gget gd) with
      | none => simp [variantStep, hneu, hpm, hd]
      | some d =>
        by_cases hlen : d.length = 2
        · have ha0 : (0 : ℚ) ≤ (get_allele_count d : ℚ) := by positivity
          have ha2 : ((get_allele_count d : ℚ)) ≤ 2 := by
            exact_mod_cast get_allele_count_le d
          have hts := @dirScore_bounds ((get_allele_count d : ℚ))
            (v.weight.getD 1)
            (if v.direction.getD "risk_up" = "risk_up"
                then (get_allele_count d : ℚ) * v.weight.getD 1
              else if v.direction.getD "risk_up" = "risk_down"
                then (2 - (get_allele_count d : ℚ)) * v.weight.getD 1
              else if v.direction.getD "risk_up" = "contextual"
                then (get_allele_count d : ℚ) * v.weight.getD 1
              else 0)
            ha0 ha2 hw
            (by split_ifs <;> tauto)
          simp only [variantStep, hneu, hpm, hd, hlen]
          simp
          constructor <;> linarith [hts.1, hts.2]
        · simp [variantStep, hneu, hpm, hd, hlen]

/-- The loop invariant `0 ≤ score ≤ max_possible_with_data` is preserved by
the whole variant fold. -/
theorem foldl_variantStep_bounds (gd : GenotypeMap) (vs : List Variant) :
    ∀ acc : ℚ × ℚ × List Detail, (∀ v ∈ vs, v.Wf) → 0 ≤ acc.1 → acc.1 ≤ acc.2.1 →
      0 ≤ (vs.foldl (variantStep gd) acc).1 ∧
      (vs.foldl (variantStep gd) acc).1 ≤ (vs.foldl (variantStep gd) acc).2.1 := by
  induction vs with
  | nil => intro acc _ h0 h1; simpa using ⟨h0, h1⟩
  | cons v vs ih =>
    intro acc hwf h0 h1
    rw [List.foldl_cons]
    have hv : v.Wf := hwf v (List.mem_cons_self v vs)
    have hd := variantStep_delta gd acc v hv
    exact ih (variantStep gd acc v) (fun u hu => hwf u (List.mem_cons_of_mem _ hu))
      (le_trans h0 hd.1) (by linarith [hd.1, hd.2])

/-- Per-trait bounds: for well-formed variants the assembled result has
`0 ≤ score ≤ max_possible_score` and `0 ≤ percentage ≤ 100`. -/
theorem calculate_trait_score_bounds (sc : RiskScorer) (tn : String) (ti : TraitNode)
    (gd : GenotypeMap) (hwf : ti.Wf) :
    0 ≤ (calculate_trait_score sc tn ti gd).score ∧
    (calculate_trait_score sc tn ti gd).score
      ≤ (calculate_trait_score sc tn ti gd).max_possible_score ∧
    0 ≤ (calculate_trait_score sc tn ti gd).percentage ∧
    (calculate_trait_score sc tn ti gd).percentage ≤ 100 := by
  have hb := foldl_variantStep_bounds gd (ti.variants.getD []) (0, 0, []) hwf
    (le_refl 0) (le_refl 0)
  have hraw : 0 ≤ (if 0 < ((ti.variants.getD []).foldl (variantStep gd) (0, 0, [])).2.1
        then ((ti.variants.getD []).foldl (variantStep gd) (0, 0, [])).1
          / ((ti.variants.getD []).foldl (variantStep gd) (0, 0, [])).2.1 * 100
        else 0) ∧
      (if 0 < ((ti.variants.getD []).foldl (variantStep gd) (0, 0, [])).2.1
        then ((ti.variants.getD []).foldl (variantStep gd) (0, 0, [])).1
          / ((ti.variants.getD []).foldl (variantStep gd) (0, 0, [])).2.1 * 100
        else 0) ≤ 100 := by
    split_ifs with hm
    · have h1 : ((ti.variants.getD []).foldl (variantStep gd) (0, 0, [])).1
          / ((ti.variants.getD []).foldl (variantStep gd) (0, 0, [])).2.1 ≤ 1 :=
        (div_le_one hm).mpr hb.2
      have h0 : 0 ≤ ((ti.variants.getD []).foldl (variantStep gd) (0, 0, [])).1
          / ((ti.variants.getD []).foldl (variantStep gd) (0, 0, [])).2.1 :=
        div_nonneg hb.1 (le_of_lt hm)
      constructor <;> nlinarith
    · norm_num
  refine ⟨hb.1, hb.2, ?_, ?_⟩
  · exact pyRound_nonneg hraw.1 2
  · exact pyRound_le_hundred hraw.2 2

/-- C2 amended: for every schema whose weights and default weights are
nonnegative and whose genotype-points values all lie in [0, 2]
(`Schema.Wf`, the spec's data model), every trait result produced by
`calculate_score` satisfies `0 ≤ score ≤ max_possible_score` and
`0 ≤ percentage ≤ 100`. (By `c2_counterexample` the restriction on point
values is necessary.) -/
theorem c2_score_bounds (sc : RiskScorer) (gd : GenotypeMap) (hwf : sc.schema.Wf) :
    ∀ p ∈ calculate_score sc gd,
      0 ≤ p.2.score ∧ p.2.score ≤ p.2.max_possible_score ∧
      0 ≤ p.2.percentage ∧ p.2.percentage ≤ 100 := by
  intro p hp
  unfold calculate_score at hp
  cases htax : sc.schema.taxonomy with
  | none =>
    rw [htax] at hp
    simp only [List.mem_map] at hp
    obtain ⟨nt, hnt, rfl⟩ := hp
    exact calculate_trait_score_bounds sc nt.1 nt.2 gd (hwf.2 nt hnt)
  | some groups =>
    rw [htax] at hp
    simp only [List.mem_flatMap] at hp
    obtain ⟨g, hg, hpg⟩ := hp
    have hgwf : g.Wf := hwf.1 g (by rw [htax]; exact hg)
    unfold process_group at hpg
    simp only [List.mem_flatMap] at hpg
    obtain ⟨t, ht, hpt⟩ := hpg
    have htwf : t.Wf := hgwf t ht
    cases hsub : t.subtraits with
    | some subs =>
      rw [hsub] at hpt
      simp only [List.mem_map] at hpt
      obtain ⟨st, hst, rfl⟩ := hpt
      have hstwf : st.Wf := htwf.2 st (by rw [hsub] at *; exact hst)
      exact calculate_trait_score_bounds sc st.name st gd hstwf
    | none =>
      rw [hsub] at hpt
      cases hvar : t.variants with
      | none => rw [hvar] at hpt; simp at hpt
      | some vlist =>
        rw [hvar] at hpt
        simp only [List.mem_singleton] at hpt
        subst hpt
        have hawf : t.asTraitNode.Wf := htwf.1
        exact calculate_trait_score_bounds sc t.name t.asTraitNode gd hawf

/-- C2 witness: the bounds hold at a concrete well-formed schema and
genotype map. -/
theorem c2_score_bounds_witness :
    Schema.Wf ⟨none, [("t", ⟨"t", none, some [⟨some "rs1", none, none, none⟩]⟩)]⟩ ∧
    (0 ≤ (0 : ℚ) ∧ (0 : ℚ) ≤ (0 : ℚ) ∧ 0 ≤ (0 : ℚ) ∧ (0 : ℚ) ≤ 100) := by
  constructor
  · decide
  · have hcs : calculate_score
        (mkRiskScorer ⟨none, [("t", ⟨"t", none, some [⟨some "rs1", none, none, none⟩]⟩)]⟩) []
        = [("t", { name := "t", normalized_score := 0, score := 0, max_possible_score := 0,
                   percentage := 0, classification := "LOW", domain := "Unknown",
                   details := [] })] := by
      have hg : gget [] "rs1" = none := rfl
      have hstep : variantStep [] (0, 0, []) ⟨some "rs1", none, none, none⟩ = (0, 0, []) := by
        simp [variantStep, Variant.pointMap, hg]
      simp [calculate_score, mkRiskScorer, calculate_trait_score, hstep, classify_risk, riskLabel]
      norm_num [pyRound, rne, rat_floor_eq, Int.fract]
      all_goals decide
    have h := c2_score_bounds
      (mkRiskScorer ⟨none, [("t", ⟨"t", none, some [⟨some "rs1", none, none, none⟩]⟩)]⟩) []
      (by decide)
      ("t", { name := "t", normalized_score := 0, score := 0, max_possible_score := 0,
              percentage := 0, classification := "LOW", domain := "Unknown", details := [] })
      (by rw [hcs]; exact List.mem_singleton.mpr rfl)
    exact h

/-- C10: a variant whose effect direction is none of risk_up, risk_down,
contextual or neutral, with a present two-character genotype, adds 0 to
the trait's score but still adds 2 × weight (the point-map default weight
in point-map mode, the top-level weight otherwise) to max_possible_score
and appends a detail line; with positive prior score, max and weight this
strictly lowers the trait's score/max ratio instead of excluding the
variant from the denominator. -/
theorem c10_unknown_direction (sc : RiskScorer) (trait_name : String) (dom : Option String)
    (gd : GenotypeMap) (vs : List Variant) (v : Variant) (d : String)
    (h1 : v.direction.getD "risk_up" ≠ "risk_up")
    (h2 : v.direction.getD "risk_up" ≠ "risk_down")
    (h3 : v.direction.getD "risk_up" ≠ "contextual")
    (h4 : v.direction.getD "risk_up" ≠ "neutral")
    (hd : v.rsid.bind (gget gd) = some d)
    (hlen : d.length = 2) :
    (calculate_trait_score sc trait_name ⟨trait_name, dom, some (vs ++ [v])⟩ gd).score
      = (calculate_trait_score sc trait_name ⟨trait_name, dom, some vs⟩ gd).score ∧
    (calculate_trait_score sc trait_name ⟨trait_name, dom, some (vs ++ [v])⟩ gd).max_possible_score
      = (calculate_trait_score sc trait_name ⟨trait_name, dom, some vs⟩ gd).max_possible_score
        + 2 * (if (Variant.pointMap v).isSome
               then (v.scoring.bind Scoring.default_weight).getD 1 else v.weight.getD 1) ∧
    (∃ dl, (calculate_trait_score sc trait_name ⟨trait_name, dom, some (vs ++ [v])⟩ gd).details
      = (calculate_trait_score sc trait_name ⟨trait_name, dom, some vs⟩ gd).details ++ [dl]) ∧
    (0 < (calculate_trait_score sc trait_name ⟨trait_name, dom, some vs⟩ gd).score →
     0 < (calculate_trait_score sc trait_name ⟨trait_name, dom, some vs⟩ gd).max_possible_score →
     0 < (if (Variant.pointMap v).isSome
          then (v.scoring.bind Scoring.default_weight).getD 1 else v.weight.getD 1) →
     (calculate_trait_score sc trait_name ⟨trait_name, dom, some (vs ++ [v])⟩ gd).score
       / (calculate_trait_score sc trait_name ⟨trait_name, dom, some (vs ++ [v])⟩ gd).max_possible_score
     < (calculate_trait_score sc trait_name ⟨trait_name, dom, some vs⟩ gd).score
       / (calculate_trait_score sc trait_name ⟨trait_name, dom, some vs⟩ gd).max_possible_score) := by
  obtain ⟨dl, hstep⟩ : ∃ dl, ∀ s m ds, variantStep gd (s, m, ds) v
      = (s, m + 2 * (if (Variant.pointMap v).isSome
              then (v.scoring.bind Scoring.default_weight).getD 1 else v.weight.getD 1),
         ds ++ [dl]) := by
    cases hpm : v.pointMap with
    | some pm =>
      refine ⟨Detail.scoredPoints v.rsid d (get_allele_count d)
        (pmGet pm (toString (get_allele_count d))) (v.direction.getD "risk_up")
        ((v.scoring.bind Scoring.default_weight).getD 1) 0, ?_⟩
      intro s m ds
      simp [variantStep, h1, h2, h3, h4, hpm, hd, hlen]
    | none =>
      refine ⟨Detail.scoredLegacy v.rsid d (get_allele_count d) (v.direction.getD "risk_up")
        (v.weight.getD 1) 0, ?_⟩
      intro s m ds
      simp [variantStep, h1, h2, h3, h4, hpm, hd, hlen]
  have hfold : (vs ++ [v]).foldl (variantStep gd) (0, 0, [])
      = ((vs.foldl (variantStep gd) (0, 0, [])).1,
         (vs.foldl (variantStep gd) (0, 0, [])).2.1
           + 2 * (if (Variant.pointMap v).isSome
                  then (v.scoring.bind Scoring.default_weight).getD 1 else v.weight.getD 1),
         (vs.foldl (variantStep gd) (0, 0, [])).2.2 ++ [dl]) := by
    rw [List.foldl_append]
    rcases hvs : vs.foldl (variantStep gd) (0, 0, []) with ⟨s, m, ds⟩
    simp [List.foldl, hstep]
  refine ⟨?_, ?_, ⟨dl, ?_⟩, ?_⟩
  · simp [calculate_trait_score, hfold]
  · simp [calculate_trait_score, hfold]
  · simp [calculate_trait_score, hfold]
  · intro hs hm hw
    have hs' : 0 < (List.foldl (variantStep gd) (0, 0, []) vs).1 := hs
    have hm' : 0 < (List.foldl (variantStep gd) (0, 0, []) vs).2.1 := hm
    show (List.foldl (variantStep gd) (0, 0, []) (vs ++ [v])).1
        / (List.foldl (variantStep gd) (0, 0, []) (vs ++ [v])).2.1
      < (List.foldl (variantStep gd) (0, 0, []) vs).1
        / (List.foldl (variantStep gd) (0, 0, []) vs).2.1
    rw [hfold]
    refine div_lt_div_of_pos_left hs' hm' ?_
    by_cases hb : v.pointMap.isSome = true <;> simp [hb] at hw ⊢ <;> linarith

/-- C10 witness: a variant with direction "weird" and present genotype "AG"
adds 2 × 1 to the max-possible score of a concrete trait. -/
theorem c10_unknown_direction_witness :
    "AG".length = 2 ∧
    (calculate_trait_score (mkRiskScorer ⟨none, []⟩) "t"
        ⟨"t", none, some ([⟨some "rs0", none, none, none⟩]
          ++ [⟨some "rs1", none, some "weird", none⟩])⟩
        [("rs0", "AA"), ("rs1", "AG")]).max_possible_score
      = (calculate_trait_score (mkRiskScorer ⟨none, []⟩) "t"
          ⟨"t", none, some [⟨some "rs0", none, none, none⟩]⟩
          [("rs0", "AA"), ("rs1", "AG")]).max_possible_score
        + 2 * (if (Variant.pointMap ⟨some "rs1", none, some "weird", none⟩).isSome
               then ((Variant.scoring ⟨some "rs1", none, some "weird", none⟩).bind
                       Scoring.default_weight).getD 1
               else (Variant.weight ⟨some "rs1", none, some "weird", none⟩).getD 1) := by
  refine ⟨by decide, ?_⟩
  have h := c10_unknown_direction (mkRiskScorer ⟨none, []⟩) "t" none
    [("rs0", "AA"), ("rs1", "AG")] [⟨some "rs0", none, none, none⟩]
    ⟨some "rs1", none, some "weird", none⟩ "AG"
    (by decide) (by decide) (by decide) (by decide) rfl (by decide)
  exact h.2.1
